import Mathlib

/-!
Verification development for the `deepresearch` backend
(`backend/app/service/deep_research_v2` and `backend/app/service/checkpoint_service.py`).

The Python sources are shallowly embedded: the research state dictionary
(`state.py`) becomes a Lean structure, the pure decision logic of the agents
(`critic.py`, `scout.py`, `wizard.py`) becomes Lean functions, and the
orchestrator (`graph.py`) and service wrapper (`service.py`) become functions
from an environment (the LLM / search / cancellation inputs of a run) to the
list of emitted events plus the final state and checkpoint record.

Conventions used throughout:
* Python dicts with a fixed key set become structures; only the keys that the
  verified code reads or writes are modelled, and `dict.get` defaults are noted
  where the source relies on them.
* Python floats that only carry LLM-reported scores are modelled as `Rat`;
  the only arithmetic performed on them in the verified code is comparison
  and one division (`research_issues_count / max(total_critical_major, 1)`),
  whose comparison against `0.3` agrees with exact rational arithmetic for
  all realistic list lengths (a disagreement would need the quotient of two
  small naturals to be within double-rounding distance of 0.3).
* Fallible or raising Python code returns an explicit outcome type.
-/

namespace DeepResearch

/-! ## Research state (`state.py`)

`ResearchPhase` is embedded member-for-member from `state.py` lines 14-23.
Note that the source enum has exactly the eight members below; in particular
it has no `RE_RESEARCHING` member, although `critic.py` line 219, `scout.py`
line 174 and `graph.py` lines 522/606 all reference
`ResearchPhase.RE_RESEARCHING`. -/

inductive ResearchPhase
  | init
  | planning
  | researching
  | analyzing
  | writing
  | reviewing
  | revising
  | completed
  deriving Repr, DecidableEq

/-- String value of each `ResearchPhase` member, as in `state.py`. -/
def ResearchPhase.value : ResearchPhase → String
  | .init => "init"
  | .planning => "planning"
  | .researching => "researching"
  | .analyzing => "analyzing"
  | .writing => "writing"
  | .reviewing => "reviewing"
  | .revising => "revising"
  | .completed => "completed"

/-- One stored fact (`state.py` `Fact` / the dict built in
`DeepScout._research_section`).  Only the fields read by the code under
verification (`content`, `source_url`) are carried; the remaining fields
(`id`, `source_name`, credibility, timestamps, ...) do not influence any
verified behaviour. -/
structure Fact where
  content : String
  source_url : String
  deriving Repr, DecidableEq

/-- One issue of a critic review (the dicts of `review_result["issues"]` in
`critic.py`).  Fields are the keys read by `CriticMaster`: `issue_type`
(default `""`), `severity` (default `"minor"`), `requires_new_search`,
`search_query` (Python truthiness of the string is tested, so the empty
string stands for a missing/falsy value), and the `resolved` flag that
`CriticMaster.process` sets to `False` before appending the issue to
`state["critic_feedback"]`. -/
structure Issue where
  issue_type : String
  severity : String
  requires_new_search : Bool
  search_query : String
  resolved : Bool := false
  deriving Repr, DecidableEq

/-- The `overall_assessment` object of a critic review
(`quality_score` default `0.0`, `verdict` default `"needs_revision"` are
applied by the caller's `.get` calls; here the parsed object carries both
fields). -/
structure OverallAssessment where
  quality_score : Rat
  verdict : String
  deriving Repr, DecidableEq

/-- A parsed critic review (`CriticMaster._review_content` result).
`fact_check_results` and `strength_points` are never read by the verified
control flow and are omitted. -/
structure ReviewResult where
  overall_assessment : OverallAssessment
  issues : List Issue
  missing_aspects : List String
  deriving Repr, DecidableEq

/-- One entry of `state["code_executions"]` (the dict appended in
`CodeWizard._analyze_data`, wizard.py lines 479-488; its `id` and
`timestamp` fields are omitted — note the stored record itself has no
`success` key, success is reported in the `code_result` message). -/
structure CodeExecutionRecord where
  code : String
  output : String
  error : Option String
  charts : List String
  retries : Nat
  deriving Repr, DecidableEq

/-- The global research state (`state.py` `ResearchState`), restricted to the
fields read or written by the code under verification.  `messages` carries
only the `type` tags of the messages appended by `BaseAgent.add_message`
(their payloads do not influence control flow).  `charts` carries the
appended chart payloads. -/
structure RState where
  query : String
  session_id : String
  phase : String
  iteration : Nat
  max_iterations : Nat
  facts : List Fact
  charts : List String
  code_executions : List CodeExecutionRecord
  quality_score : Rat
  critic_feedback : List Issue
  unresolved_issues : Nat
  pending_search_queries : List String
  messages : List String
  final_report : String
  deriving Repr, DecidableEq

/-- Embeds `state.py` `create_initial_state` (restricted to the modelled
fields; the source also initialises outline/mind-map/etc. containers to be
empty). -/
def create_initial_state (query : String) (session_id : String) : RState where
  query := query
  session_id := session_id
  phase := ResearchPhase.init.value
  iteration := 0
  max_iterations := 3
  facts := []
  charts := []
  code_executions := []
  quality_score := 0
  critic_feedback := []
  unresolved_issues := 0
  pending_search_queries := []
  messages := []
  final_report := ""

/-- Embeds `BaseAgent.add_message` as seen by the state: the message (here,
its `type` tag) is appended to `state["messages"]`; the same message is
pushed on the streaming queue, which the orchestrator model reads back from
this list. -/
def addMessage (s : RState) (ty : String) : RState :=
  { s with messages := s.messages ++ [ty] }

/-! ## Checkpoint service (`checkpoint_service.py`)

The database table `research_checkpoints` holds at most one row per
`session_id` (`save_checkpoint` updates the existing row when present), so
for a single session the store is modelled as `Option CheckpointRecord`.
`_clean_state_for_storage` is the identity on the modelled state (every
modelled field is JSON-serialisable), so the snapshot column `state_json`
carries the state itself. -/

structure CheckpointRecord where
  session_id : String
  query : String
  phase : String
  iteration : Nat
  state_json : RState
  status : String
  error_message : Option String
  deriving Repr, DecidableEq

/-- Embeds `CheckpointService.save_checkpoint` (lines 25-89): when a record
for the session exists its `phase`, `iteration` and `state_json` are
overwritten and its `status` is set to `"running"` unconditionally;
otherwise a fresh record with `status = "running"` is inserted. -/
def save_checkpoint (store : Option CheckpointRecord) (session_id : String)
    (state : RState) : Option CheckpointRecord :=
  match store with
  | some existing =>
      some { existing with
               phase := state.phase
               iteration := state.iteration
               state_json := state
               status := "running" }
  | none =>
      some { session_id := session_id
             query := state.query
             phase := state.phase
             iteration := state.iteration
             state_json := state
             status := "running"
             error_message := none }

/-- Embeds `CheckpointService.update_status` (lines 183-222).  Returns the
new store and the boolean result.  Python only assigns `error_message` when
the argument is truthy, so `some ""` (an empty message) leaves the stored
message unchanged. -/
def update_status (store : Option CheckpointRecord) (status : String)
    (error_message : Option String) : Option CheckpointRecord × Bool :=
  match store with
  | none => (none, false)
  | some r =>
      (some { r with
                status := status
                error_message :=
                  match error_message with
                  | some m => if m = "" then r.error_message else some m
                  | none => r.error_message },
       true)

/-- Embeds `CheckpointService.load_checkpoint`: the stored snapshot, if any. -/
def load_checkpoint (store : Option CheckpointRecord) : Option RState :=
  store.map (fun r => r.state_json)

/-- Embeds the `status` field of `CheckpointService.get_checkpoint_info`. -/
def get_info_status (store : Option CheckpointRecord) : Option String :=
  store.map (fun r => r.status)

/-! ## Critic routing and review recording (`agents/critic.py`) -/

/-- The issue types that may require a supplementary search
(`critic.py` line 247). -/
def research_needed_types : List String := ["missing_source", "incomplete", "outdated"]

/-- Whether an issue counts towards `research_issues_count`
(`critic.py` line 257). -/
def isResearchIssue (i : Issue) : Bool :=
  research_needed_types.contains i.issue_type &&
    (i.severity == "critical" || i.severity == "major")

/-- Result of `CriticMaster._analyze_issues_for_routing`. -/
structure RoutingDecision where
  should_research : Bool
  search_queries : List String
  deriving Repr, DecidableEq

/-- Embeds `CriticMaster._analyze_issues_for_routing` (lines 233-279).
The search queries are the `search_query` fields of research-type
critical/major issues with `requires_new_search` and a truthy query, plus the
first three `missing_aspects`; `list(set(...))[:5]` is modelled by `dedup`
followed by `take 5` (Python's set iteration order is unspecified; no
verified statement depends on the order of the deduplicated list). -/
def analyze_issues_for_routing (r : ReviewResult) : RoutingDecision :=
  let issues := r.issues
  let missing_aspects := r.missing_aspects
  let research_issues_count := issues.countP (fun i => isResearchIssue i)
  let search_queries :=
    (issues.filter (fun i =>
        isResearchIssue i && i.requires_new_search && i.search_query != "")).map
      (fun i => i.search_query)
      ++ missing_aspects.take 3
  let total_critical_major :=
    issues.countP (fun i => i.severity == "critical" || i.severity == "major")
  let should_research :=
    !search_queries.isEmpty &&
    (research_issues_count > 0 || !missing_aspects.isEmpty) &&
    (total_critical_major == 0 ||
      decide ((research_issues_count : Rat) / (max total_critical_major 1 : Nat) > 3 / 10))
  { should_research := should_research
    search_queries := search_queries.dedup.take 5 }

/-- Outcome of `CriticMaster.process`.  `attrError s` records that the call
raised `AttributeError` while evaluating
`ResearchPhase.RE_RESEARCHING.value` (`critic.py` line 219; the member does
not exist in `state.py`), with `s` the state as mutated up to that point:
the right-hand side is evaluated before any assignment, so `phase`,
`pending_search_queries` and `iteration` are left untouched. -/
inductive CriticOutcome
  | ok (s : RState)
  | attrError (s : RState)
  deriving Repr, DecidableEq

/-- The state carried by a `CriticOutcome`. -/
def CriticOutcome.state : CriticOutcome → RState
  | .ok s => s
  | .attrError s => s

/-- Embeds `CriticMaster.process` (lines 148-231).  `review` is the parsed
result of `_review_content` (`none` models a falsy parse result, in which
case the whole recording/routing block is skipped).  Issue ids are not
modelled; `resolved := false` is set as in the source.  The three
`critic_feedback` messages are emitted for the first three critical issues. -/
def critic_process (s : RState) (review : Option ReviewResult) : CriticOutcome :=
  if s.phase != ResearchPhase.reviewing.value then .ok s
  else
    let s := addMessage s "thought"
    match review with
    | none => .ok s
    | some r =>
      let s := { s with critic_feedback :=
                   s.critic_feedback ++ r.issues.map (fun (i : Issue) => { i with resolved := false }) }
      let s := { s with quality_score := r.overall_assessment.quality_score }
      let s := { s with unresolved_issues :=
                   (r.issues.filter (fun (i : Issue) =>
                      i.severity == "critical" || i.severity == "major")).length }
      let s := addMessage s "review"
      let s := ((r.issues.filter (fun i => i.severity == "critical")).take 3).foldl
                 (fun acc _ => addMessage acc "critic_feedback") s
      let verdict := r.overall_assessment.verdict
      if verdict == "pass" then
        .ok { s with phase := ResearchPhase.completed.value }
      else if s.iteration ≥ s.max_iterations then
        .ok (addMessage { s with phase := ResearchPhase.completed.value } "warning")
      else
        let needs_new_search := analyze_issues_for_routing r
        if needs_new_search.should_research then
          -- `state["phase"] = ResearchPhase.RE_RESEARCHING.value` raises
          -- `AttributeError` before assigning: the enum has no such member.
          .attrError s
        else
          .ok { s with phase := ResearchPhase.revising.value, iteration := s.iteration + 1 }

/-! ## Fact deduplication (`agents/scout.py`)

`DeepScout` keeps an instance-level map `self.fact_fingerprints :
fingerprint → first source url`, modelled as an association list.  The
fingerprint function `_compute_fact_fingerprint` (md5 of extracted numbers
and keywords) is passed as a parameter `fp`: the dedup logic only compares
fingerprints for equality, and any function assigns equal fingerprints to
equal contents, which is all the verified statements use. -/

/-- Embeds `DeepScout._is_duplicate_fact` (scout.py lines 1174-1189):
returns the duplicate verdict and the updated fingerprint map.  When the
fingerprint is already mapped, a fact from the same source url is *not*
treated as a duplicate ("可能是更详细的版本"), while a fact from a
different url *is*; an unseen fingerprint is recorded with its url. -/
def is_duplicate_fact (fp : String → String) (fingerprints : List (String × String))
    (content : String) (source_url : String) : Bool × List (String × String) :=
  let fingerprint := fp content
  match fingerprints.lookup fingerprint with
  | some existing_url =>
      if existing_url = source_url then (false, fingerprints) else (true, fingerprints)
  | none => (false, fingerprints ++ [(fingerprint, source_url)])

/-- Embeds the fact-extraction loop of `DeepScout._research_section`
(scout.py lines 561-585): each extracted fact is appended to the facts list
unless `_is_duplicate_fact` says it is a duplicate.  Returns the extended
facts list and the updated fingerprint map. -/
def research_section_extract_facts (fp : String → String) :
    List Fact → List (String × String) → List Fact → List Fact × List (String × String)
  | [], fingerprints, facts => (facts, fingerprints)
  | f :: rest, fingerprints, facts =>
      let dup := is_duplicate_fact fp fingerprints f.content f.source_url
      if dup.1 then research_section_extract_facts fp rest dup.2 facts
      else research_section_extract_facts fp rest dup.2 (facts ++ [f])

/-! ## Sandbox safety check and self-healing execution (`agents/wizard.py`) -/

/-- Result dictionary of `CodeWizard._execute_code` / `_execute_in_sandbox`:
`success`, `error` (absent on success), `output` (stdout), `charts`
(base64-encoded images). -/
structure ExecResult where
  success : Bool
  error : Option String
  output : String
  charts : List String
  deriving Repr, DecidableEq

/-- Word character in the sense of the regex class `\w` (the sandboxed code
is ASCII, where Python's unicode-aware `\w`/`\b` coincide with this). -/
def isWordChar (c : Char) : Bool :=
  c.isAlpha || c.isDigit || c == '_'

/-- Shape of the regexes in `CodeWizard.FORBIDDEN_PATTERNS` (wizard.py lines
310-339); every pattern in the source list is of one of these five forms. -/
inductive PatShape
  | importOf (m : List Char)
  | dotted (m : List Char)
  | callOf (m : List Char)
  | word (m : List Char)
  | plain (m : List Char)
  deriving Repr, DecidableEq

/-- Consume a literal from the front of the character list. -/
def matchLit : List Char → List Char → Option (List Char)
  | [], cs => some cs
  | _ :: _, [] => none
  | l :: ls, c :: cs => if l = c then matchLit ls cs else none

/-- Consume `\s*`. -/
def skipWs0 : List Char → List Char
  | [] => []
  | c :: cs => if c.isWhitespace then skipWs0 cs else c :: cs

/-- Consume `\s+` (at least one whitespace character). -/
def skipWs1 : List Char → Option (List Char)
  | [] => none
  | c :: cs => if c.isWhitespace then some (skipWs0 cs) else none

/-- A `\b` boundary after a word character: end of input or a non-word
character. -/
def boundaryAfter : List Char → Bool
  | [] => true
  | c :: _ => !isWordChar c

/-- Does the pattern shape match at the current position?
`importOf m` is `import\s+m\b`, `dotted m` is `m\.`, `callOf m` is
`m\s*\(`, `word m` is `m\b`, `plain m` is the literal `m`.  (The leading
`\b` of the source regexes is checked by the scanner.) -/
def matchShapeAt (p : PatShape) (cs : List Char) : Bool :=
  match p with
  | .importOf m =>
      match matchLit "import".toList cs with
      | none => false
      | some rest =>
          match skipWs1 rest with
          | none => false
          | some rest2 =>
              match matchLit m rest2 with
              | none => false
              | some rest3 => boundaryAfter rest3
  | .dotted m =>
      match matchLit m cs with
      | none => false
      | some rest =>
          match rest with
          | '.' :: _ => true
          | _ => false
  | .callOf m =>
      match matchLit m cs with
      | none => false
      | some rest =>
          match skipWs0 rest with
          | '(' :: _ => true
          | _ => false
  | .word m =>
      match matchLit m cs with
      | none => false
      | some rest => boundaryAfter rest
  | .plain m =>
      (matchLit m cs).isSome

/-- Whether the shape's source regex begins with `\b` (all but the plain
`__import__` substring). -/
def needsBoundaryBefore : PatShape → Bool
  | .plain _ => false
  | _ => true

/-- Scan all positions of the text for the pattern, tracking whether the
previous character was a word character (for the leading `\b`). -/
def scanPat (p : PatShape) : Bool → List Char → Bool
  | _, [] => false
  | prevIsWord, c :: rest =>
      ((!needsBoundaryBefore p || !prevIsWord) && matchShapeAt p (c :: rest))
        || scanPat p (isWordChar c) rest

/-- Does the pattern match anywhere in the code?  `re.IGNORECASE` is
modelled by lower-casing the subject (every pattern literal is already
lower-case). -/
def patMatches (p : PatShape) (code : String) : Bool :=
  scanPat p false (code.toList.map Char.toLower)

/-- Embeds `CodeWizard.FORBIDDEN_PATTERNS` (wizard.py lines 310-339), in
source order. -/
def FORBIDDEN_PATTERNS : List PatShape :=
  [ .importOf "os".toList,
    .importOf "sys".toList,
    .importOf "subprocess".toList,
    .dotted "os".toList,
    .dotted "sys".toList,
    .dotted "subprocess".toList,
    .callOf "open".toList,
    .callOf "exec".toList,
    .callOf "eval".toList,
    .plain "__import__".toList,
    .importOf "requests".toList,
    .dotted "requests".toList,
    .importOf "urllib".toList,
    .dotted "urllib".toList,
    .importOf "socket".toList,
    .dotted "socket".toList,
    .importOf "shutil".toList,
    .dotted "shutil".toList,
    .importOf "pathlib".toList,
    .dotted "pathlib".toList,
    .importOf "pickle".toList,
    .dotted "pickle".toList,
    .importOf "glob".toList,
    .dotted "glob".toList,
    .callOf "compile".toList,
    .word "__builtins__".toList,
    .word "__globals__".toList,
    .word "__code__".toList ]

/-- Embeds `CodeWizard._is_code_safe` (wizard.py lines 1074-1083). -/
def is_code_safe (code : String) : Bool :=
  FORBIDDEN_PATTERNS.all (fun p => !patMatches p code)

/-- Remove trailing whitespace (Python `rstrip` / the regex anchor `\s*$`). -/
def rstripChars (cs : List Char) : List Char :=
  (cs.reverse.dropWhile Char.isWhitespace).reverse

/-- Remove leading whitespace. -/
def lstripChars (cs : List Char) : List Char :=
  cs.dropWhile Char.isWhitespace

/-- Python `str.strip()`. -/
def stripChars (cs : List Char) : List Char :=
  rstripChars (lstripChars cs)

/-- One application of `re.sub(suffix + r'\s*$', '', line)`: if the line,
ignoring trailing whitespace, ends with the literal suffix, both the suffix
and the trailing whitespace are removed; otherwise the line is unchanged. -/
def subTrailing (suffix : List Char) (l : List Char) : List Char :=
  let r := rstripChars l
  if suffix.isSuffixOf r then r.take (r.length - suffix.length) else l

/-- Substring test (Python `needle in haystack`). -/
def containsSub (needle : List Char) : List Char → Bool
  | [] => needle.isEmpty
  | c :: rest => needle.isPrefixOf (c :: rest) || containsSub needle rest

/-- Split on newline characters (Python `str.split('\n')`). -/
def splitOnNl : List Char → List (List Char)
  | [] => [[]]
  | c :: rest =>
      if c = '\n' then [] :: splitOnNl rest
      else
        match splitOnNl rest with
        | l :: ls => (c :: l) :: ls
        | [] => [[c]]

/-- The per-line removal filter of `_clean_code` (wizard.py lines 903-910):
a line is dropped when its stripped form starts with `import `/`from `
(sandbox pre-imports the allowed modules) or mentions `plt.rcParams`. -/
def clean_code_line_keep (line : List Char) : Bool :=
  let stripped := stripChars line
  !("import ".toList.isPrefixOf stripped) &&
  !("from ".toList.isPrefixOf stripped) &&
  !containsSub "plt.rcParams".toList stripped

/-- The per-line rewriting of `_clean_code` (wizard.py lines 911-921): drop a
trailing code fence, drop a trailing line-continuation backslash, and
right-strip. -/
def clean_code_line_fix (line : List Char) : List Char :=
  rstripChars (subTrailing "\\".toList (subTrailing "```".toList line))

/-- The regex `^```\w*\s*` anchored at the start of the result. -/
def stripLeadingFence (cs : List Char) : List Char :=
  if "```".toList.isPrefixOf cs then
    ((cs.drop 3).dropWhile isWordChar).dropWhile Char.isWhitespace
  else cs

/-- Embeds `CodeWizard._clean_code` (wizard.py lines 745-928) on
backtick-free inputs: the markdown-fence removal prelude (lines 755-760)
only matches code containing a triple backtick, so it is the identity on
that fragment (its `\s*` can otherwise consume newlines, which is why the
model is restricted to it; every input in the theorems below is
backtick-free).

After the prelude the source takes an early return (lines 762-766) when the
code already has real newlines and no literal backslash-n sequence: each
line is only right-stripped and the import-stripping loop below is never
reached.  Otherwise the escape-repair passes run (`protect_strings` and the
regex rewrites for backslash-escaped newlines, LaTeX/Chinese line-break
markers, glued comments and glued statements) followed by the
line-splitting loop (lines 899-928).  Those escape-repair passes are the
identity on code containing no quote, no backslash and no hash sign, in
which the statement-gluing rewrite also finds no match (it fires only where
one of `]` `)` True/False/None is followed by whitespace and one of the
tokens `plt.`/`fig`/`ax.`/`df =`/`data =`/`global_data`/`china_data`/
`line<digit>`); every fall-through input in the theorems below lies in that
fragment, so there this definition agrees with the full source function. -/
def clean_code (code : String) : String :=
  if code.toList.contains '\n' && !containsSub "\\n".toList code.toList then
    String.mk (stripChars (List.intercalate ['\n'] ((splitOnNl code.toList).map rstripChars)))
  else
    let lines := splitOnNl code.toList
    let cleaned := (lines.filter clean_code_line_keep).map clean_code_line_fix
    let result := stripChars (List.intercalate ['\n'] cleaned)
    String.mk (stripChars (subTrailing "```".toList (stripLeadingFence result)))

/-- Embeds `CodeWizard._execute_code` (wizard.py lines 1012-1072): the code
is cleaned, then checked against the forbidden patterns, and only if safe
handed to the sandbox (passed here as a parameter; the syntax pre-check via
`compile` only logs and never aborts, and the `except` wrapper around the
sandbox is folded into the `sandbox` parameter being total). -/
def execute_code (sandbox : String → ExecResult) (code : String) : ExecResult :=
  let cleaned := clean_code code
  if !is_code_safe cleaned then
    { success := false
      error := some "Code contains forbidden operations"
      output := ""
      charts := [] }
  else sandbox cleaned

/-- Result dictionary of `CodeWizard._execute_with_self_correction`. -/
structure CorrectionResult where
  success : Bool
  error : Option String
  output : String
  charts : List String
  retries : Nat
  final_code : String
  deriving Repr, DecidableEq

/-- Loop body of `CodeWizard._execute_with_self_correction` (wizard.py lines
521-608).  `execf` is `_execute_code` (cleaning + safety check + sandbox),
`fixf` is `_fix_code` (the LLM repair; `none` models a falsy or code-less
response, which breaks out of the loop).  The `while retries <= max_retries`
loop increments `retries` exactly once per continuing iteration, so `fuel`,
maintained as `max_retries + 1 - retries`, is positive exactly when the
source's loop guard holds; the `fuel = 0` branch is the source's fall-through
return after the loop. -/
def execute_with_self_correction_go (execf : String → ExecResult)
    (fixf : String → String → String → Option String) (max_retries : Nat) :
    Nat → String → Nat → CorrectionResult
  | 0, current_code, retries =>
      { success := false
        error := some "Max retries exceeded"
        output := ""
        charts := []
        retries := retries
        final_code := current_code }
  | fuel + 1, current_code, retries =>
      let result := execf current_code
      if result.success then
        { success := true
          error := none
          output := result.output
          charts := result.charts
          retries := retries
          final_code := current_code }
      else
        let error := result.error.getD "Unknown error"
        let stdout := result.output
        if retries ≥ max_retries then
          { success := false
            error := some error
            output := stdout
            charts := []
            retries := retries
            final_code := current_code }
        else
          match fixf current_code error stdout with
          | some fixed_code =>
              execute_with_self_correction_go execf fixf max_retries fuel fixed_code (retries + 1)
          | none =>
              { success := false
                error := some "Max retries exceeded"
                output := ""
                charts := []
                retries := retries
                final_code := current_code }

/-- Embeds `CodeWizard._execute_with_self_correction` with its default
`max_retries = 3` supplied by the caller. -/
def execute_with_self_correction (execf : String → ExecResult)
    (fixf : String → String → String → Option String) (code : String)
    (max_retries : Nat) : CorrectionResult :=
  execute_with_self_correction_go execf fixf max_retries (max_retries + 1) code 0

/-- Embeds the recording tail of `CodeWizard._analyze_data` (wizard.py lines
479-520): append the execution record, emit the `code_result` message, and —
only for each generated chart — append a chart entry and emit a `chart`
message. -/
def analyze_data_record (s : RState) (er : CorrectionResult) : RState :=
  let s := { s with code_executions := s.code_executions ++
               [{ code := er.final_code
                  output := er.output
                  error := er.error
                  charts := er.charts
                  retries := er.retries }] }
  let s := addMessage s "code_result"
  er.charts.foldl
    (fun acc c => addMessage { acc with charts := acc.charts ++ [c] } "chart") s

/-! ## Orchestrator (`graph.py`) and service wrapper (`service.py`)

`DeepResearchGraph.run` always executes `_run_simplified` (the LangGraph
branch is commented out in the source).  The run is modelled as a function
from a `RunEnv` — the agents' behaviours, the critic's parsed review and the
cancellation flag reads, i.e. everything the outside world feeds the run —
to the list of yielded events, the final state, the checkpoint store and an
outcome tag.  Checkpoint service availability is assumed (the deployed
configuration); `_save_checkpoint` and the status updates skip their work
when `session_id` is empty, as in the source. -/

/-- SSE events yielded by `DeepResearchGraph.run` / `_run_simplified`.
Messages produced by agents via `add_message` appear as `agentMsg` with
their `type` tag (the grep-verified tag set of the agents never contains
`research_start` or `research_resumed`).  Only the payload fields that the
verified statements mention are carried. -/
inductive Event
  | researchStart
  | researchResumed (phase : String)
  | phaseEvt (name : String)
  | agentMsg (ty : String)
  | checkpointSaved (phase : String)
  | researchCancelled
  | researchComplete (quality_score : Rat) (iterations : Nat)
  | errorEvt (content : String)
  deriving Repr, DecidableEq

/-- How a `_run_simplified` invocation ends: normal completion (the
`research_complete` path), early exit after a cancellation check, or the
`except Exception` branch (graph.py lines 572-577). -/
inductive RunOutcome
  | completed
  | cancelled
  | crashed
  deriving Repr, DecidableEq

/-- Whether an event is one of the two stream-opening events. -/
def isStartEvent : Event → Bool
  | .researchStart => true
  | .researchResumed _ => true
  | _ => false

/-- Environment of one run: the five pre-review agents as state transformers
returning the new state and the `type` tags of the messages they streamed
(`BaseAgent.add_message` pushes each message on the queue that
`run_agent_with_streaming` drains), the critic's parsed review for the n-th
critic invocation, and the value of the n-th `check_cancelled()` read (the
flag reads happen after `clear_cancel_flag`, in source order). -/
structure RunEnv where
  architect : RState → RState × List String
  scout : RState → RState × List String
  analyst : RState → RState × List String
  wizard : RState → RState × List String
  writer : RState → RState × List String
  review : Nat → Option ReviewResult
  cancel : Nat → Bool

/-- One pre-review phase of `_run_simplified`: the `phase` event payload, the
value written to `state["phase"]` before the agents run, and the agents run
in order (the analyzing phase runs the data analyst and then the wizard). -/
structure PhaseSpec where
  name : String
  set_phase : String
  agents : List (RState → RState × List String)

/-- The four phases executed before the review loop (graph.py lines
448-506). -/
def prePhases (env : RunEnv) : List PhaseSpec :=
  [ { name := "planning", set_phase := ResearchPhase.init.value, agents := [env.architect] },
    { name := "researching", set_phase := ResearchPhase.researching.value, agents := [env.scout] },
    { name := "analyzing", set_phase := ResearchPhase.analyzing.value,
      agents := [env.analyst, env.wizard] },
    { name := "writing", set_phase := ResearchPhase.writing.value, agents := [env.writer] } ]

/-- Run a list of agents in sequence, yielding each one's streamed messages
and clearing `state["messages"]` after each agent, as the orchestrator
does. -/
def runAgents : List (RState → RState × List String) → RState → RState × List Event
  | [], s => (s, [])
  | f :: fs, s =>
      let r := f s
      let s' := { r.1 with messages := [] }
      let rest := runAgents fs s'
      (rest.1, r.2.map Event.agentMsg ++ rest.2)

/-- Accumulated result of the pre-review phases. -/
structure PreResult where
  events : List Event
  state : RState
  store : Option CheckpointRecord
  checks : Nat
  cancelled : Bool
  trace : List RState
  deriving Repr

/-- Embeds graph.py lines 448-506: for each phase, check the cancellation
flag (yielding `research_cancelled` and returning when set), yield the
`phase` event, set the phase, run the agents, and save a checkpoint
(yielding `checkpoint_saved`; `_save_checkpoint` returns `False` without
saving when `session_id` is empty).  `k` counts the `check_cancelled`
reads consumed so far; `trace` records every state the run passes
through. -/
def runPrePhases (env : RunEnv) : List PhaseSpec → Nat → RState → Option CheckpointRecord → PreResult
  | [], k, s, store =>
      { events := [], state := s, store := store, checks := k, cancelled := false, trace := [s] }
  | p :: ps, k, s, store =>
      if env.cancel k then
        { events := [Event.researchCancelled], state := s, store := store
          checks := k + 1, cancelled := true, trace := [s] }
      else
        let s1 := { s with phase := p.set_phase }
        let ar := runAgents p.agents s1
        let s2 := ar.1
        let saved := if s2.session_id = "" then (store, ([] : List Event))
                     else (save_checkpoint store s2.session_id s2, [Event.checkpointSaved s2.phase])
        let rest := runPrePhases env ps (k + 1) s2 saved.1
        { events := Event.phaseEvt p.name :: ar.2 ++ saved.2 ++ rest.events
          state := rest.state
          store := rest.store
          checks := rest.checks
          cancelled := rest.cancelled
          trace := s :: s1 :: s2 :: rest.trace }

/-- Overall result of `_run_simplified`. -/
structure RunResult where
  events : List Event
  state : RState
  store : Option CheckpointRecord
  outcome : RunOutcome
  trace : List RState
  deriving Repr

/-- Python's `str()` of the `AttributeError` raised when `ResearchPhase.
RE_RESEARCHING` is evaluated (the enum member missing from `state.py`). -/
def attrErrorMsg : String := "RE_RESEARCHING"

/-- The `except Exception` branch of `_run_simplified` (graph.py lines
572-577): update the checkpoint status to `"failed"` with the error text
(when the service and a session id are present) and yield the `error`
event. -/
def crashResult (s : RState) (store : Option CheckpointRecord) (evs : List Event)
    (tr : List RState) : RunResult :=
  let store' := if s.session_id = "" then store
                else (update_status store "failed" (some attrErrorMsg)).1
  { events := evs ++ [Event.errorEvt attrErrorMsg], state := s, store := store'
    outcome := .crashed, trace := tr }

/-- The completion tail of `_run_simplified` (graph.py lines 548-570): set
the phase to completed, update the checkpoint status to `"completed"`, and
yield the `research_complete` event. -/
def completionResult (s : RState) (store : Option CheckpointRecord) (evs : List Event)
    (tr : List RState) : RunResult :=
  let s' := { s with phase := ResearchPhase.completed.value }
  let store' := if s'.session_id = "" then store else (update_status store "completed" none).1
  { events := evs ++ [Event.researchComplete s'.quality_score s'.iteration]
    state := s', store := store', outcome := .completed, trace := tr ++ [s'] }

/-- Embeds the review loop and completion of `_run_simplified` (graph.py
lines 508-570).  When the loop guard `iteration < max_iterations` holds, the
cancellation flag is checked, the phase is set to reviewing and the critic
runs.  The loop body can never reach a second iteration: if the critic does
not leave the phase at `completed` (which breaks out of the loop), control
reaches graph.py line 522, whose condition evaluates the missing enum member
`ResearchPhase.RE_RESEARCHING` and raises `AttributeError` into the `except`
branch — this covers both the critic's own `attrError` outcome (the agent
task's exception is swallowed by `run_agent_with_streaming`, leaving the
phase at reviewing) and the revising route (phase `revising`).  The critic's
streamed messages are those it appended beyond the (empty) message list it
received. -/
def runReviewAndComplete (env : RunEnv) (k : Nat) (s : RState)
    (store : Option CheckpointRecord) : RunResult :=
  if s.iteration < s.max_iterations then
    if env.cancel k then
      { events := [Event.researchCancelled], state := s, store := store
        outcome := .cancelled, trace := [s] }
    else
      let s1 := { s with phase := ResearchPhase.reviewing.value }
      match critic_process s1 (env.review 0) with
      | .attrError s2 =>
          let evs := Event.phaseEvt "reviewing" ::
            (s2.messages.drop s1.messages.length).map Event.agentMsg
          crashResult { s2 with messages := [] } store evs [s, s1, s2]
      | .ok s2 =>
          let evs := Event.phaseEvt "reviewing" ::
            (s2.messages.drop s1.messages.length).map Event.agentMsg
          let s3 := { s2 with messages := [] }
          if s3.phase = ResearchPhase.completed.value then
            completionResult s3 store evs [s, s1, s3]
          else
            crashResult s3 store evs [s, s1, s3]
  else
    completionResult s store [] [s]

/-- Embeds `DeepResearchGraph._run_simplified` (graph.py lines 360-581):
the four pre-review phases followed by the review loop and completion. -/
def run_simplified (env : RunEnv) (s : RState) (store : Option CheckpointRecord) : RunResult :=
  let pre := runPrePhases env (prePhases env) 0 s store
  if pre.cancelled then
    { events := pre.events, state := pre.state, store := pre.store
      outcome := .cancelled, trace := pre.trace }
  else
    let lr := runReviewAndComplete env pre.checks pre.state pre.store
    { events := pre.events ++ lr.events, state := lr.state, store := lr.store
      outcome := lr.outcome, trace := pre.trace ++ lr.trace }

/-- Embeds `DeepResearchGraph.run` (graph.py lines 283-336): when invoked
with `resume=true` and a session id, the checkpoint is loaded; if a snapshot
exists the `research_resumed` event (carrying the saved phase) opens the
stream and the saved state is used, otherwise a fresh state is created (with
the graph's `max_iterations`) and `research_start` opens the stream.  Either
way `_run_simplified` is then entered. -/
def graph_run (env : RunEnv) (query : String) (session_id : String) (resume : Bool)
    (max_iterations : Nat) (store : Option CheckpointRecord) : RunResult :=
  match (if resume && session_id ≠ "" then load_checkpoint store else none) with
  | some saved =>
      let r := run_simplified env saved store
      { r with events := Event.researchResumed saved.phase :: r.events, trace := saved :: r.trace }
  | none =>
      let s := { create_initial_state query session_id with max_iterations := max_iterations }
      let r := run_simplified env s store
      { r with events := Event.researchStart :: r.events, trace := s :: r.trace }

/-- The `type` discriminator of each event, as it appears in the emitted
JSON. -/
def eventTypeName : Event → String
  | .researchStart => "research_start"
  | .researchResumed _ => "research_resumed"
  | .phaseEvt _ => "phase"
  | .agentMsg ty => ty
  | .checkpointSaved _ => "checkpoint_saved"
  | .researchCancelled => "research_cancelled"
  | .researchComplete _ _ => "research_complete"
  | .errorEvt _ => "error"

/-- Embeds `DeepResearchV2Service._format_sse`:
`f"data: {json.dumps(event)}\n\n"`.  The JSON encoding is abbreviated to the
`type` field (the payloads stay on the `Event` value); what the verified
statements use is that every event frame begins with `data: ` followed by
the opening brace of a JSON object. -/
def format_sse (event : Event) : String :=
  String.mk ("data: \x7b\"type\": \"".toList
    ++ (eventTypeName event).toList ++ "\"\x7d\n\n".toList)

/-- The terminating frame sent by `DeepResearchV2Service.research`. -/
def doneFrame : String := "data: [DONE]\n\n"

/-- Embeds `DeepResearchV2Service.research` (service.py lines 66-101):
each event of the underlying run is formatted as an SSE frame; if the
generator raises after yielding `emitted`, the `except` branch emits an
`error` event with the exception text; the `[DONE]` frame is sent
unconditionally afterwards. -/
def service_research (emitted : List Event) (raised : Option String) : List String :=
  emitted.map format_sse
    ++ (match raised with
        | some msg => [format_sse (Event.errorEvt msg)]
        | none => [])
    ++ [doneFrame]

/-! ## Concrete fixtures and small helpers used by the theorems -/

/-- Whether a `CriticOutcome` is a normal return (no `AttributeError`). -/
def CriticOutcome.isOk : CriticOutcome → Bool
  | .ok _ => true
  | .attrError _ => false

/-- An agent transformer satisfies this when it leaves `iteration` and
`max_iterations` untouched.  Grepping the agent sources shows that
`state["iteration"]` is written only by `CriticMaster.process` and
`state["max_iterations"]` by nobody, so the five pre-review agents of the
deployed graph satisfy it. -/
def preservesIter (f : RState → RState × List String) : Prop :=
  ∀ s, ((f s).1).iteration = s.iteration ∧ ((f s).1).max_iterations = s.max_iterations

/-- A state in the reviewing phase, as the orchestrator hands it to the
critic. -/
def fixtureReviewingState : RState :=
  { create_initial_state "q" "s1" with phase := ResearchPhase.reviewing.value }

/-- A research-type critical/major issue carrying a search suggestion. -/
def fixtureRoutingIssue : Issue :=
  { issue_type := "missing_source"
    severity := "major"
    requires_new_search := true
    search_query := "global sodium battery shipments 2024"
    resolved := false }

/-- A non-pass review that triggers the supplementary-search route
(`should_research = true`). -/
def fixtureRoutingReview : ReviewResult :=
  { overall_assessment := { quality_score := 5, verdict := "needs_revision" }
    issues := [fixtureRoutingIssue]
    missing_aspects := [] }

/-- A review with verdict `pass` and the given quality score. -/
def fixturePassReview (score : Rat) : ReviewResult :=
  { overall_assessment := { quality_score := score, verdict := "pass" }
    issues := []
    missing_aspects := [] }

/-- An agent behaviour that changes nothing and streams nothing. -/
def trivialAgent : RState → RState × List String := fun s => (s, [])

/-- A run environment with trivial agents, a fixed review and a fixed
cancellation schedule. -/
def fixtureEnv (cancel : Nat → Bool) (review : Option ReviewResult) : RunEnv :=
  { architect := trivialAgent
    scout := trivialAgent
    analyst := trivialAgent
    wizard := trivialAgent
    writer := trivialAgent
    review := fun _ => review
    cancel := cancel }

/-- Cancellation flag never set. -/
def noCancel : Nat → Bool := fun _ => false

/-- Cancellation flag set when the second `check_cancelled` read happens
(after the planning phase, before the researching phase). -/
def cancelAtOne : Nat → Bool := fun k => k == 1

/-- A snapshot saved in the writing phase. -/
def fixtureSavedWritingState : RState :=
  { create_initial_state "q" "s1" with phase := ResearchPhase.writing.value }

/-- A checkpoint store holding the writing-phase snapshot. -/
def fixtureWritingStore : Option CheckpointRecord :=
  some { session_id := "s1"
         query := "q"
         phase := "writing"
         iteration := 0
         state_json := fixtureSavedWritingState
         status := "running"
         error_message := none }

/-- A sandbox in which everything succeeds and returns nothing. -/
def sandboxOk : String → ExecResult :=
  fun _ => { success := true, error := none, output := "", charts := [] }

/-- An execution backend in which every attempt fails. -/
def failingExec : String → ExecResult :=
  fun _ => { success := false, error := some "NameError", output := "boom", charts := [] }

/-- An LLM repair that always returns the code unchanged. -/
def echoFix : String → String → String → Option String :=
  fun c _ _ => some c

/-! ## Shared lemmas -/

/-- The critic's per-critical-issue feedback messages only extend the
message list. -/
theorem foldl_addMessage (ty : String) (l : List Issue) (s : RState) :
    l.foldl (fun acc _ => addMessage acc ty) s
      = { s with messages := s.messages ++ List.replicate l.length ty } := by
  induction l generalizing s with
  | nil =>
      show s = { s with messages := s.messages ++ List.replicate 0 ty }
      simp
  | cons a t ih =>
      show List.foldl _ (addMessage s ty) t = _
      rw [ih]
      simp [addMessage, List.replicate_succ, List.append_assoc]

/-- When the phase is reviewing, the verdict is not `pass`, the iteration
budget is not exhausted and the routing decision asks for new research,
`CriticMaster.process` ends in the `AttributeError` outcome, leaving
`phase`, `pending_search_queries` and `iteration` untouched. -/
theorem critic_process_routes_to_attrError (s : RState) (r : ReviewResult)
    (hp : s.phase = ResearchPhase.reviewing.value)
    (hv : (r.overall_assessment.verdict == "pass") = false)
    (hit : s.iteration < s.max_iterations)
    (hr : (analyze_issues_for_routing r).should_research = true) :
    (critic_process s (some r)).isOk = false ∧
    (critic_process s (some r)).state.phase = s.phase ∧
    (critic_process s (some r)).state.pending_search_queries = s.pending_search_queries ∧
    (critic_process s (some r)).state.iteration = s.iteration := by
  have hne : (s.phase != ResearchPhase.reviewing.value) = false := by simp [hp]
  have hge : ¬ (s.iteration ≥ s.max_iterations) := by omega
  simp only [critic_process]
  simp only [foldl_addMessage]
  simp [hne, hv, hge, hr, addMessage, CriticOutcome.isOk, CriticOutcome.state]

/-! ## Claim theorems -/

/-- C10: every successful `save_checkpoint` for a session overwrites the
record's status to `"running"` regardless of its previous value, so a
phase-boundary save performed after `update_status(session_id,
"completed")` or `update_status(session_id, "failed")` reverts the stored
status to `"running"`. -/
theorem save_checkpoint_overwrites_status_to_running :
    ∀ (store : Option CheckpointRecord) (sid status' : String) (em : Option String) (st : RState),
      get_info_status (save_checkpoint ((update_status store status' em).1) sid st)
        = some "running" := by
  intro store sid status' em st
  cases store <;> simp [update_status, save_checkpoint, get_info_status]

/-- C4 counterexample: two extracted facts with the same content (hence the
same fingerprint under any fingerprint function) and the *same* source url
are both stored, so `state.facts` can hold two facts sharing both
fingerprint and source url; with *different* source urls the second fact is
dropped.  Both halves contradict the claim. -/
theorem duplicate_fact_counterexample :
    (research_section_extract_facts (fun s => s)
        [{ content := "fact-a", source_url := "https://a" },
         { content := "fact-a", source_url := "https://a" }] [] []).1
      = [{ content := "fact-a", source_url := "https://a" },
         { content := "fact-a", source_url := "https://a" }] ∧
    (research_section_extract_facts (fun s => s)
        [{ content := "fact-a", source_url := "https://a" },
         { content := "fact-a", source_url := "https://b" }] [] []).1
      = [{ content := "fact-a", source_url := "https://a" }] := by
  constructor <;> rfl

/-- C4 amended: for two extracted facts whose fingerprints collide, the
dedup keeps both exactly when the source urls are equal ("a more detailed
version from the same source"), and drops the second exactly when the
source urls differ. -/
theorem duplicate_fact_same_url_kept_diff_url_dropped :
    ∀ (fp : String → String) (c₁ c₂ u₁ u₂ : String), fp c₁ = fp c₂ →
      (u₁ = u₂ →
          (research_section_extract_facts fp
            [{ content := c₁, source_url := u₁ }, { content := c₂, source_url := u₂ }] [] []).1
            = [{ content := c₁, source_url := u₁ }, { content := c₂, source_url := u₂ }]) ∧
      (u₁ ≠ u₂ →
          (research_section_extract_facts fp
            [{ content := c₁, source_url := u₁ }, { content := c₂, source_url := u₂ }] [] []).1
            = [{ content := c₁, source_url := u₁ }]) := by
  intro fp c₁ c₂ u₁ u₂ h
  constructor
  · intro hu
    subst hu
    simp [research_section_extract_facts, is_duplicate_fact, List.lookup, ← h]
  · intro hu
    simp [research_section_extract_facts, is_duplicate_fact, List.lookup, ← h, hu]

/-- C4 amended witness at a concrete fingerprint function and inputs. -/
theorem duplicate_fact_same_url_kept_diff_url_dropped_witness :
    (research_section_extract_facts (fun s => s)
        [{ content := "fact-a", source_url := "https://a" },
         { content := "fact-a", source_url := "https://a" }] [] []).1
      = [{ content := "fact-a", source_url := "https://a" },
         { content := "fact-a", source_url := "https://a" }] :=
  (duplicate_fact_same_url_kept_diff_url_dropped (fun s => s)
      "fact-a" "fact-a" "https://a" "https://a" rfl).1 rfl

/-- C5 counterexample: the critic copies a `pass` review's quality score of
3 into the state unchecked and still sets the phase to completed, so a pass
verdict is recorded with `quality_score < 7`. -/
theorem pass_verdict_low_score_recorded :
    (critic_process fixtureReviewingState (some (fixturePassReview 3))).isOk = true ∧
    (critic_process fixtureReviewingState (some (fixturePassReview 3))).state.phase
      = ResearchPhase.completed.value ∧
    (critic_process fixtureReviewingState (some (fixturePassReview 3))).state.quality_score = 3 ∧
    (critic_process fixtureReviewingState (some (fixturePassReview 3))).state.quality_score < 7 := by
  refine ⟨rfl, rfl, rfl, by decide⟩

/-- C5 amended: on a `pass` verdict the critic sets the phase to completed
and records the review's `quality_score` as-is, whatever its value — the
`quality_score ≥ 7` rule appears only in the LLM prompt and is not enforced
by the code. -/
theorem pass_verdict_copies_score_and_completes :
    ∀ (s : RState) (r : ReviewResult),
      s.phase = ResearchPhase.reviewing.value →
      r.overall_assessment.verdict = "pass" →
      ∃ s', critic_process s (some r) = .ok s' ∧
        s'.phase = ResearchPhase.completed.value ∧
        s'.quality_score = r.overall_assessment.quality_score := by
  intro s r hp hv
  have hne : (s.phase != ResearchPhase.reviewing.value) = false := by simp [hp]
  simp only [critic_process]
  simp only [foldl_addMessage]
  simp [hne, hv, addMessage]

/-- C5 amended witness. -/
theorem pass_verdict_copies_score_and_completes_witness :
    ∃ s', critic_process fixtureReviewingState (some (fixturePassReview 8)) = .ok s' ∧
      s'.phase = ResearchPhase.completed.value ∧
      s'.quality_score = (fixturePassReview 8).overall_assessment.quality_score :=
  pass_verdict_copies_score_and_completes fixtureReviewingState (fixturePassReview 8) rfl rfl

/-- C1: at a non-pass review that satisfies the routing condition
(`should_research = true`), `CriticMaster.process` does not set the phase to
`re_researching` or fill `pending_search_queries`: evaluating
`ResearchPhase.RE_RESEARCHING.value` raises `AttributeError` (modelled by
the `attrError` outcome) because the `ResearchPhase` enum of `state.py` has
no member whose value is `"re_researching"`. -/
theorem re_researching_member_missing :
    (analyze_issues_for_routing fixtureRoutingReview).should_research = true ∧
    (critic_process fixtureReviewingState (some fixtureRoutingReview)).isOk = false ∧
    (critic_process fixtureReviewingState (some fixtureRoutingReview)).state.phase
      = ResearchPhase.reviewing.value ∧
    (critic_process fixtureReviewingState (some fixtureRoutingReview)).state.pending_search_queries
      = [] ∧
    ∀ p : ResearchPhase, p.value ≠ "re_researching" := by
  have hr : (analyze_issues_for_routing fixtureRoutingReview).should_research = true := by
    simp [analyze_issues_for_routing, fixtureRoutingReview, fixtureRoutingIssue,
      isResearchIssue, research_needed_types]
    norm_num
  have h := critic_process_routes_to_attrError fixtureReviewingState fixtureRoutingReview
    rfl rfl (by decide) hr
  refine ⟨hr, h.1, ?_, ?_, ?_⟩
  · rw [h.2.1]; rfl
  · rw [h.2.2.1]; rfl
  · intro p
    cases p <;> decide

/-- The chart-appending fold of `_analyze_data` never touches the
execution records. -/
theorem foldl_chart_code_executions (l : List String) (s : RState) :
    (l.foldl (fun acc c => addMessage { acc with charts := acc.charts ++ [c] } "chart") s).code_executions
      = s.code_executions := by
  induction l generalizing s with
  | nil => rfl
  | cons a t ih =>
      show (List.foldl _ (addMessage _ "chart") t).code_executions = _
      rw [ih]
      rfl

/-- The loop counter of the self-healing loop never exceeds `max_retries`. -/
theorem self_correction_go_retries_le (execf : String → ExecResult)
    (fixf : String → String → String → Option String) (max_retries : Nat) :
    ∀ (fuel : Nat) (code : String) (retries : Nat), retries ≤ max_retries →
      (execute_with_self_correction_go execf fixf max_retries fuel code retries).retries
        ≤ max_retries := by
  intro fuel
  induction fuel with
  | zero =>
      intro code retries h
      simpa [execute_with_self_correction_go] using h
  | succ f ih =>
      intro code retries h
      simp only [execute_with_self_correction_go]
      split
      · simpa using h
      · split
        · simpa using h
        · split
          · apply ih
            omega
          · simpa using h

/-- When every execution fails and every repair produces code, the
self-healing loop returns failure with exactly `max_retries` retries and no
charts. -/
theorem self_correction_go_all_fail (execf : String → ExecResult)
    (fixf : String → String → String → Option String) (max_retries : Nat)
    (hfail : ∀ c, (execf c).success = false)
    (hfix : ∀ c e o, ∃ c', fixf c e o = some c') :
    ∀ (fuel : Nat) (code : String) (retries : Nat),
      retries + fuel = max_retries + 1 → retries ≤ max_retries →
      (execute_with_self_correction_go execf fixf max_retries fuel code retries).success = false ∧
      (execute_with_self_correction_go execf fixf max_retries fuel code retries).retries
        = max_retries ∧
      (execute_with_self_correction_go execf fixf max_retries fuel code retries).charts = [] := by
  intro fuel
  induction fuel with
  | zero =>
      intro code retries h h2
      omega
  | succ f ih =>
      intro code retries h h2
      by_cases hr : retries ≥ max_retries
      · have hk : retries = max_retries := by omega
        simp [execute_with_self_correction_go, hfail, hr, hk]
      · obtain ⟨c', hc⟩ := hfix code ((execf code).error.getD "Unknown error") (execf code).output
        simp only [execute_with_self_correction_go, hfail, Bool.false_eq_true, if_false, hc]
        simp only [hr, if_false]
        exact ih c' (retries + 1) (by omega) (by omega)

/-- C6 counterexample: single-line code `import os` (no newline, so it
misses `_clean_code`'s early return and takes the escape-repair path) is
*not* rejected: the line loop strips the import before `_is_code_safe`
runs, the forbidden pattern for `import os` matches the submitted code but
the cleaned code is empty and passes the check, and the sandbox executes
it successfully — refuting the universal claim.  (For contrast, the last
two conjuncts confirm that multi-line code with real newlines keeps the
offending line through the early-return branch and *is* rejected, as the
spec's concrete scenario describes.) -/
theorem bare_import_os_silently_stripped :
    patMatches (PatShape.importOf "os".toList) "import os" = true ∧
    clean_code "import os" = "" ∧
    is_code_safe (clean_code "import os") = true ∧
    execute_code sandboxOk "import os"
      = { success := true, error := none, output := "", charts := [] } ∧
    clean_code "import os\nprint(1)" = "import os\nprint(1)" ∧
    execute_code sandboxOk "import os\nprint(1)"
      = { success := false, error := some "Code contains forbidden operations",
          output := "", charts := [] } := by
  refine ⟨by decide, by decide, by decide, by decide, by decide, by decide⟩

/-- C6 amended: the forbidden-operation check runs on the *cleaned* code.
Code already in normal multi-line form (real newlines, no literal
backslash-n) is only right-stripped by `_clean_code`, so forbidden content
in it — including an `import os` line — survives cleaning; whenever the
cleaned code still matches a forbidden pattern, execution is rejected
before the sandbox runs with the structured failure `{success: false,
error: "Code contains forbidden operations"}` and no charts, and recording
a chartless failure leaves the state's charts unchanged (the run
continues).  Code that takes the escape-repair path instead (single-line
code, or code carrying literal backslash-n escapes) has every
`import`/`from` line stripped before the check, so a bare `import os`
there is silently removed rather than rejected. -/
theorem unsafe_cleaned_code_rejected :
    ∀ (sandbox : String → ExecResult) (code : String),
      is_code_safe (clean_code code) = false →
      execute_code sandbox code
        = { success := false, error := some "Code contains forbidden operations",
            output := "", charts := [] } ∧
      ∀ (s : RState) (er : CorrectionResult), er.charts = [] →
        (analyze_data_record s er).charts = s.charts := by
  intro sandbox code h
  constructor
  · simp [execute_code, h]
  · intro s er hc
    simp [analyze_data_record, hc, addMessage]

/-- C6 amended witness: `os.getcwd()` usage survives cleaning and is
rejected. -/
theorem unsafe_cleaned_code_rejected_witness :
    execute_code sandboxOk "x = os.getcwd()"
      = { success := false, error := some "Code contains forbidden operations",
          output := "", charts := [] } :=
  ((unsafe_cleaned_code_rejected sandboxOk "x = os.getcwd()") (by decide)).1

/-- C7: the self-healing loop retries at most 3 times and terminates; when
every execution fails and every LLM repair returns code, the final result
carries `success = false`, `retries = 3` and no charts; recording the result
appends exactly one execution record and, in the chartless case, leaves the
state's charts unchanged (the run continues). -/
theorem self_correction_bounded_and_gives_up :
    ∀ (execf : String → ExecResult) (fixf : String → String → String → Option String)
      (code : String),
      (execute_with_self_correction execf fixf code 3).retries ≤ 3 ∧
      ((∀ c, (execf c).success = false) → (∀ c e o, ∃ c', fixf c e o = some c') →
        (execute_with_self_correction execf fixf code 3).success = false ∧
        (execute_with_self_correction execf fixf code 3).retries = 3 ∧
        (execute_with_self_correction execf fixf code 3).charts = []) ∧
      (∀ (s : RState) (er : CorrectionResult),
        (analyze_data_record s er).code_executions.length = s.code_executions.length + 1 ∧
        (er.charts = [] → (analyze_data_record s er).charts = s.charts)) := by
  intro execf fixf code
  refine ⟨?_, ?_, ?_⟩
  · exact self_correction_go_retries_le execf fixf 3 4 code 0 (by omega)
  · intro hfail hfix
    exact self_correction_go_all_fail execf fixf 3 hfail hfix 4 code 0 (by omega) (by omega)
  · intro s er
    constructor
    · simp only [analyze_data_record]
      rw [foldl_chart_code_executions]
      simp [addMessage]
    · intro hc
      simp [analyze_data_record, hc, addMessage]

/-- C7 witness: with an always-failing sandbox and an echoing repair, the
loop gives up after 3 retries. -/
theorem self_correction_bounded_and_gives_up_witness :
    (execute_with_self_correction failingExec echoFix "df.plot()" 3).retries ≤ 3 ∧
    (execute_with_self_correction failingExec echoFix "df.plot()" 3).success = false ∧
    (execute_with_self_correction failingExec echoFix "df.plot()" 3).retries = 3 ∧
    (execute_with_self_correction failingExec echoFix "df.plot()" 3).charts = [] := by
  have h := self_correction_bounded_and_gives_up failingExec echoFix "df.plot()"
  have h2 := h.2.1 (fun _ => rfl) (fun c _ _ => ⟨c, rfl⟩)
  exact ⟨h.1, h2.1, h2.2.1, h2.2.2⟩

/-! ### Lemmas about the orchestrator model -/

/-- A checkpoint save always leaves the stored status at `"running"`. -/
theorem save_checkpoint_status (store : Option CheckpointRecord) (sid : String) (st : RState) :
    get_info_status (save_checkpoint store sid st) = some "running" := by
  cases store <;> rfl

/-- Running a list of iteration-preserving agents preserves `iteration` and
`max_iterations`. -/
theorem runAgents_preserves (fs : List (RState → RState × List String))
    (hfs : ∀ f ∈ fs, preservesIter f) :
    ∀ s : RState, ((runAgents fs s).1).iteration = s.iteration ∧
      ((runAgents fs s).1).max_iterations = s.max_iterations := by
  induction fs with
  | nil => intro s; exact ⟨rfl, rfl⟩
  | cons f fs ih =>
      intro s
      have hf := hfs f (by simp)
      have hrest := ih (fun g hg => hfs g (by simp [hg])) { (f s).1 with messages := [] }
      refine ⟨?_, ?_⟩
      · show ((runAgents fs { (f s).1 with messages := [] }).1).iteration = s.iteration
        rw [hrest.1]
        exact (hf s).1
      · show ((runAgents fs { (f s).1 with messages := [] }).1).max_iterations = s.max_iterations
        rw [hrest.2]
        exact (hf s).2

/-- Agent-streamed events are never stream-opening events. -/
theorem runAgents_events_not_start (fs : List (RState → RState × List String)) :
    ∀ (s : RState), ∀ e ∈ (runAgents fs s).2, isStartEvent e = false := by
  induction fs with
  | nil => intro s e he; simp [runAgents] at he
  | cons f fs ih =>
      intro s e he
      simp only [runAgents] at he
      rcases List.mem_append.mp he with h | h
      · obtain ⟨ty, _, rfl⟩ := List.mem_map.mp h
        rfl
      · exact ih _ e h

/-- The pre-review phases never emit stream-opening events. -/
theorem runPrePhases_events_not_start (env : RunEnv) :
    ∀ (ps : List PhaseSpec) (k : Nat) (s : RState) (store : Option CheckpointRecord),
      ∀ e ∈ (runPrePhases env ps k s store).events, isStartEvent e = false := by
  intro ps
  induction ps with
  | nil => intro k s store e he; simp [runPrePhases] at he
  | cons p ps ih =>
      intro k s store e he
      by_cases hc : env.cancel k
      · simp [runPrePhases, hc] at he
        subst he
        rfl
      · simp only [runPrePhases, hc, Bool.false_eq_true, if_false] at he
        rcases List.mem_cons.mp he with rfl | he2
        · rfl
        · rcases List.mem_append.mp he2 with h | h
          · rcases List.mem_append.mp h with h3 | h3
            · exact runAgents_events_not_start _ _ e h3
            · by_cases hsid : ((runAgents p.agents { s with phase := p.set_phase }).1).session_id = ""
              · simp [hsid] at h3
              · simp [hsid] at h3
                subst h3
                rfl
          · exact ih _ _ _ e h

/-- The pre-review phases either leave the checkpoint store untouched or
leave it with status `"running"` (saves are the only store writes there). -/
theorem runPrePhases_store_status (env : RunEnv) :
    ∀ (ps : List PhaseSpec) (k : Nat) (s : RState) (store : Option CheckpointRecord),
      get_info_status (runPrePhases env ps k s store).store = get_info_status store ∨
      get_info_status (runPrePhases env ps k s store).store = some "running" := by
  intro ps
  induction ps with
  | nil => intro k s store; left; rfl
  | cons p ps ih =>
      intro k s store
      by_cases hc : env.cancel k
      · left; simp [runPrePhases, hc]
      · simp only [runPrePhases, hc, Bool.false_eq_true, if_false]
        by_cases hsid : ((runAgents p.agents { s with phase := p.set_phase }).1).session_id = ""
        · simpa [hsid] using ih (k + 1) _ store
        · simp only [hsid, if_false]
          rcases ih (k + 1) (runAgents p.agents { s with phase := p.set_phase }).1
              (save_checkpoint store ((runAgents p.agents { s with phase := p.set_phase }).1).session_id
                (runAgents p.agents { s with phase := p.set_phase }).1) with h | h
          · right
            rw [h, save_checkpoint_status]
          · right
            exact h

/-- When the pre-review phases are cancelled, the last emitted event is
`research_cancelled`. -/
theorem runPrePhases_cancelled_last (env : RunEnv) :
    ∀ (ps : List PhaseSpec) (k : Nat) (s : RState) (store : Option CheckpointRecord),
      (runPrePhases env ps k s store).cancelled = true →
      (runPrePhases env ps k s store).events.getLast? = some Event.researchCancelled := by
  intro ps
  induction ps with
  | nil => intro k s store h; simp [runPrePhases] at h
  | cons p ps ih =>
      intro k s store h
      by_cases hc : env.cancel k
      · simp [runPrePhases, hc]
      · simp only [runPrePhases, hc, Bool.false_eq_true, if_false] at h ⊢
        have hrest := ih (k + 1) _ _ h
        rw [← Option.mem_def] at hrest ⊢
        exact List.mem_getLast?_cons (List.mem_getLast?_append_of_mem_getLast? hrest)

/-- The pre-review phases preserve `iteration` and `max_iterations`, and
every state they pass through keeps `iteration ≤ max_iterations`, provided
all agents preserve the two fields. -/
theorem runPrePhases_trace_inv (env : RunEnv) :
    ∀ (ps : List PhaseSpec) (k : Nat) (s : RState) (store : Option CheckpointRecord),
      (∀ p ∈ ps, ∀ f ∈ p.agents, preservesIter f) →
      ((runPrePhases env ps k s store).state.iteration = s.iteration ∧
       (runPrePhases env ps k s store).state.max_iterations = s.max_iterations) ∧
      (s.iteration ≤ s.max_iterations →
        ∀ t ∈ (runPrePhases env ps k s store).trace, t.iteration ≤ t.max_iterations) := by
  intro ps
  induction ps with
  | nil =>
      intro k s store _
      refine ⟨⟨rfl, rfl⟩, ?_⟩
      intro h t ht
      simp only [runPrePhases, List.mem_singleton] at ht
      subst ht
      exact h
  | cons p ps ih =>
      intro k s store hps
      by_cases hc : env.cancel k
      · refine ⟨⟨by simp [runPrePhases, hc], by simp [runPrePhases, hc]⟩, ?_⟩
        intro h t ht
        simp only [runPrePhases, hc, if_true, List.mem_singleton] at ht
        subst ht
        exact h
      · have hagents := runAgents_preserves p.agents (hps p (by simp))
          { s with phase := p.set_phase }
        have hih := ih (k + 1) ((runAgents p.agents { s with phase := p.set_phase }).1)
          ((if ((runAgents p.agents { s with phase := p.set_phase }).1).session_id = ""
            then (store, ([] : List Event))
            else (save_checkpoint store
                    ((runAgents p.agents { s with phase := p.set_phase }).1).session_id
                    ((runAgents p.agents { s with phase := p.set_phase }).1),
                  [Event.checkpointSaved
                    ((runAgents p.agents { s with phase := p.set_phase }).1).phase])).1)
          (fun q hq => hps q (List.mem_cons_of_mem _ hq))
        constructor
        · constructor
          · simp only [runPrePhases, hc, Bool.false_eq_true, if_false]
            rw [hih.1.1]
            exact hagents.1
          · simp only [runPrePhases, hc, Bool.false_eq_true, if_false]
            rw [hih.1.2]
            exact hagents.2
        · intro h t ht
          simp only [runPrePhases, hc, Bool.false_eq_true, if_false, List.mem_cons] at ht
          rcases ht with rfl | rfl | rfl | ht
          · exact h
          · exact h
          · rw [hagents.1, hagents.2]
            exact h
          · refine hih.2 ?_ t ht
            rw [hagents.1, hagents.2]
            exact h

/-- `CriticMaster.process` preserves `max_iterations` and increments
`iteration` only when `iteration < max_iterations` (and then by exactly
one). -/
theorem critic_process_iteration (s : RState) (r : Option ReviewResult) :
    (critic_process s r).state.max_iterations = s.max_iterations ∧
    ((critic_process s r).state.iteration = s.iteration ∨
      (s.iteration < s.max_iterations ∧
        (critic_process s r).state.iteration = s.iteration + 1)) := by
  simp only [critic_process]
  split
  · exact ⟨rfl, Or.inl rfl⟩
  · cases r with
    | none => exact ⟨rfl, Or.inl rfl⟩
    | some rr =>
        simp only [foldl_addMessage]
        simp only [addMessage]
        split
        · exact ⟨rfl, Or.inl rfl⟩
        · split
          · exact ⟨rfl, Or.inl rfl⟩
          · rename_i hge
            split
            · exact ⟨rfl, Or.inl rfl⟩
            · exact ⟨rfl, Or.inr ⟨Nat.not_le.mp hge, rfl⟩⟩

/-- `CriticMaster.process` keeps the `iteration ≤ max_iterations`
invariant. -/
theorem critic_state_inv (s : RState) (r : Option ReviewResult)
    (h : s.iteration ≤ s.max_iterations) :
    (critic_process s r).state.iteration ≤ (critic_process s r).state.max_iterations := by
  obtain ⟨hmax, hit⟩ := critic_process_iteration s r
  rcases hit with h1 | ⟨h2, h3⟩ <;> omega

/-- When the verdict is not `pass` and the iteration budget is exhausted,
the critic force-completes without incrementing `iteration`. -/
theorem critic_process_force_complete (s : RState) (rr : ReviewResult)
    (hp : s.phase = ResearchPhase.reviewing.value)
    (hv : (rr.overall_assessment.verdict == "pass") = false)
    (hge : s.iteration ≥ s.max_iterations) :
    (critic_process s (some rr)).isOk = true ∧
    (critic_process s (some rr)).state.phase = ResearchPhase.completed.value ∧
    (critic_process s (some rr)).state.iteration = s.iteration := by
  have hne : (s.phase != ResearchPhase.reviewing.value) = false := by simp [hp]
  simp only [critic_process]
  simp only [foldl_addMessage]
  simp [hne, hv, hge, addMessage, CriticOutcome.isOk, CriticOutcome.state]

/-- When the review stage exits through a cancellation check, the store is
untouched and the only emitted event is `research_cancelled`. -/
theorem runReview_cancelled (env : RunEnv) (k : Nat) (s : RState)
    (store : Option CheckpointRecord)
    (h : (runReviewAndComplete env k s store).outcome = RunOutcome.cancelled) :
    (runReviewAndComplete env k s store).store = store ∧
    (runReviewAndComplete env k s store).events = [Event.researchCancelled] := by
  unfold runReviewAndComplete at h ⊢
  by_cases hit : s.iteration < s.max_iterations
  · rw [if_pos hit] at h ⊢
    by_cases hc : env.cancel k = true
    · rw [if_pos hc] at h ⊢
      exact ⟨rfl, rfl⟩
    · rw [if_neg hc] at h ⊢
      exfalso
      dsimp only at h
      split at h
      · simp [crashResult] at h
      · split at h
        · simp [completionResult] at h
        · simp [crashResult] at h
  · rw [if_neg hit] at h
    exfalso
    simp [completionResult] at h

/-- The review stage never emits stream-opening events. -/
theorem runReview_events_not_start (env : RunEnv) (k : Nat) (s : RState)
    (store : Option CheckpointRecord) :
    ∀ e ∈ (runReviewAndComplete env k s store).events, isStartEvent e = false := by
  intro e he
  unfold runReviewAndComplete at he
  by_cases hit : s.iteration < s.max_iterations
  · rw [if_pos hit] at he
    by_cases hc : env.cancel k = true
    · rw [if_pos hc] at he
      simp only [List.mem_singleton] at he
      subst he
      rfl
    · rw [if_neg hc] at he
      dsimp only at he
      split at he
      · simp only [crashResult, List.mem_append] at he
        rcases he with he | he
        · rcases List.mem_cons.mp he with rfl | he2
          · rfl
          · obtain ⟨ty, _, rfl⟩ := List.mem_map.mp he2
            rfl
        · simp only [List.mem_singleton] at he
          subst he
          rfl
      · split at he
        · simp only [completionResult, List.mem_append] at he
          rcases he with he | he
          · rcases List.mem_cons.mp he with rfl | he2
            · rfl
            · obtain ⟨ty, _, rfl⟩ := List.mem_map.mp he2
              rfl
          · simp only [List.mem_singleton] at he
            subst he
            rfl
        · simp only [crashResult, List.mem_append] at he
          rcases he with he | he
          · rcases List.mem_cons.mp he with rfl | he2
            · rfl
            · obtain ⟨ty, _, rfl⟩ := List.mem_map.mp he2
              rfl
          · simp only [List.mem_singleton] at he
            subst he
            rfl
  · rw [if_neg hit] at he
    simp only [completionResult, List.nil_append, List.mem_singleton] at he
    subst he
    rfl

/-- Every state the review stage passes through keeps the iteration
invariant. -/
theorem runReview_trace_inv (env : RunEnv) (k : Nat) (s : RState)
    (store : Option CheckpointRecord)
    (h : s.iteration ≤ s.max_iterations) :
    ∀ t ∈ (runReviewAndComplete env k s store).trace, t.iteration ≤ t.max_iterations := by
  intro t ht
  unfold runReviewAndComplete at ht
  by_cases hit : s.iteration < s.max_iterations
  · rw [if_pos hit] at ht
    by_cases hc : env.cancel k = true
    · rw [if_pos hc] at ht
      simp only [List.mem_singleton] at ht
      subst ht
      exact h
    · rw [if_neg hc] at ht
      dsimp only at ht
      have hinv := critic_state_inv { s with phase := ResearchPhase.reviewing.value }
        (env.review 0) h
      cases hcp : critic_process { s with phase := ResearchPhase.reviewing.value }
          (env.review 0) with
      | ok s2 =>
          rw [hcp] at ht hinv
          dsimp only at ht
          split at ht
          · simp only [completionResult, List.mem_append, List.mem_cons,
              List.mem_singleton, List.not_mem_nil, or_false] at ht
            rcases ht with (rfl | rfl | rfl) | rfl
            · exact h
            · exact h
            · exact hinv
            · exact hinv
          · simp only [crashResult, List.mem_cons, List.not_mem_nil, or_false] at ht
            rcases ht with rfl | rfl | rfl
            · exact h
            · exact h
            · exact hinv
      | attrError s2 =>
          rw [hcp] at ht hinv
          dsimp only at ht
          simp only [crashResult, List.mem_cons, List.not_mem_nil, or_false] at ht
          rcases ht with rfl | rfl | rfl
          · exact h
          · exact h
          · exact hinv
  · rw [if_neg hit] at ht
    simp only [completionResult, List.mem_append, List.mem_cons, List.mem_singleton,
      List.not_mem_nil, or_false] at ht
    rcases ht with rfl | rfl
    · exact h
    · exact h

/-- `_run_simplified` never emits stream-opening events. -/
theorem run_simplified_events_not_start (env : RunEnv) (s : RState)
    (store : Option CheckpointRecord) :
    ∀ e ∈ (run_simplified env s store).events, isStartEvent e = false := by
  intro e he
  unfold run_simplified at he
  by_cases hp : (runPrePhases env (prePhases env) 0 s store).cancelled = true
  · rw [if_pos hp] at he
    exact runPrePhases_events_not_start env _ _ _ _ e he
  · rw [if_neg hp] at he
    rcases List.mem_append.mp he with h | h
    · exact runPrePhases_events_not_start env _ _ _ _ e h
    · exact runReview_events_not_start env _ _ _ e h

/-- When a run is cancelled, its event list ends with `research_cancelled`
and the checkpoint status is the initial one or `"running"` — never updated
to `"failed"`. -/
theorem run_simplified_cancelled_status (env : RunEnv) (s : RState)
    (store : Option CheckpointRecord)
    (h : (run_simplified env s store).outcome = RunOutcome.cancelled) :
    (run_simplified env s store).events.getLast? = some Event.researchCancelled ∧
    (get_info_status (run_simplified env s store).store = get_info_status store ∨
     get_info_status (run_simplified env s store).store = some "running") := by
  unfold run_simplified at h ⊢
  by_cases hp : (runPrePhases env (prePhases env) 0 s store).cancelled = true
  · rw [if_pos hp] at h ⊢
    exact ⟨runPrePhases_cancelled_last env _ _ _ _ hp, runPrePhases_store_status env _ _ _ _⟩
  · rw [if_neg hp] at h ⊢
    dsimp only at h ⊢
    have hlr := runReview_cancelled env _ _ _ h
    constructor
    · rw [hlr.2, List.getLast?_append_of_ne_nil _ (by simp)]
      rfl
    · rw [hlr.1]
      exact runPrePhases_store_status env _ _ _ _

/-- Every state of a run keeps the iteration invariant (given agents that
preserve the two counters, as the sources do). -/
theorem run_simplified_trace_inv (env : RunEnv) (s : RState) (store : Option CheckpointRecord)
    (hpres : ∀ p ∈ prePhases env, ∀ f ∈ p.agents, preservesIter f)
    (h : s.iteration ≤ s.max_iterations) :
    ∀ t ∈ (run_simplified env s store).trace, t.iteration ≤ t.max_iterations := by
  intro t ht
  unfold run_simplified at ht
  have hpre := runPrePhases_trace_inv env (prePhases env) 0 s store hpres
  by_cases hp : (runPrePhases env (prePhases env) 0 s store).cancelled = true
  · rw [if_pos hp] at ht
    exact hpre.2 h t ht
  · rw [if_neg hp] at ht
    rcases List.mem_append.mp ht with h2 | h2
    · exact hpre.2 h t h2
    · refine runReview_trace_inv env _ _ _ ?_ t h2
      rw [hpre.1.1, hpre.1.2]
      exact h

/-- No SSE event frame equals the terminating `[DONE]` frame (event frames
open a JSON object after `data: `). -/
theorem format_sse_ne_done (e : Event) : (format_sse e == doneFrame) = false := by
  rw [beq_eq_false_iff_ne]
  intro h
  have hd : ("data: \x7b\"type\": \"".toList
      ++ (eventTypeName e).toList ++ "\"\x7d\n\n".toList) = "data: [DONE]\n\n".data :=
    congrArg String.data h
  have h6 : (some '{' : Option Char) = some '[' := by
    calc (some '{' : Option Char)
        = ("data: \x7b\"type\": \"".toList
            ++ (eventTypeName e).toList ++ "\"\x7d\n\n".toList).get? 6 := rfl
      _ = ("data: [DONE]\n\n".data).get? 6 := congrArg (fun l => l.get? 6) hd
      _ = some '[' := rfl
  exact absurd h6 (by decide)

/-- `DeepResearchGraph.run` opens the stream with exactly one
`research_start` or `research_resumed` event, and the rest of the stream
contains no further stream-opening events. -/
theorem graph_run_start (env : RunEnv) (q sid : String) (resume : Bool) (mi : Nat)
    (store : Option CheckpointRecord) :
    ∃ e rest, (graph_run env q sid resume mi store).events = e :: rest ∧
      isStartEvent e = true ∧ ∀ x ∈ rest, isStartEvent x = false := by
  unfold graph_run
  cases hload : (if resume && sid ≠ "" then load_checkpoint store else none) with
  | some saved => exact ⟨_, _, rfl, rfl, run_simplified_events_not_start env _ _⟩
  | none => exact ⟨_, _, rfl, rfl, run_simplified_events_not_start env _ _⟩

/-- C2 amended: on `resume=true` with a saved snapshot, the orchestrator
emits `research_resumed` carrying the saved phase and then re-enters
`_run_simplified`, which restarts from the planning phase regardless of the
saved phase — it does not skip already-completed phases. -/
theorem resume_restarts_from_planning :
    ∀ (env : RunEnv) (q sid : String) (mi : Nat) (store : Option CheckpointRecord)
      (saved : RState),
      load_checkpoint store = some saved → sid ≠ "" →
      (graph_run env q sid true mi store).events
        = Event.researchResumed saved.phase :: (run_simplified env saved store).events ∧
      (env.cancel 0 = false →
        (run_simplified env saved store).events.head? = some (Event.phaseEvt "planning")) := by
  intro env q sid mi store saved hload hsid
  constructor
  · simp [graph_run, hsid, hload]
  · intro hc
    have hpre : ∃ tail, (runPrePhases env (prePhases env) 0 saved store).events
        = Event.phaseEvt "planning" :: tail := by
      simp only [prePhases, runPrePhases, hc, Bool.false_eq_true, if_false]
      exact ⟨_, rfl⟩
    obtain ⟨tail, htail⟩ := hpre
    unfold run_simplified
    by_cases hpc : (runPrePhases env (prePhases env) 0 saved store).cancelled = true
    · rw [if_pos hpc]
      dsimp only
      rw [htail]
      rfl
    · rw [if_neg hpc]
      dsimp only
      rw [htail]
      rfl

/-- C2 counterexample: a run resumed from a writing-phase snapshot emits
`research_resumed{phase: writing}` but then re-emits `phase: planning` and
`phase: researching`, contradicting the claim that no such events reappear. -/
theorem resume_reemits_planning :
    (graph_run (fixtureEnv noCancel (some (fixturePassReview 8))) "q" "s1" true 3
        fixtureWritingStore).events.head? = some (Event.researchResumed "writing") ∧
    Event.phaseEvt "planning" ∈ (graph_run (fixtureEnv noCancel (some (fixturePassReview 8)))
        "q" "s1" true 3 fixtureWritingStore).events ∧
    Event.phaseEvt "researching" ∈ (graph_run (fixtureEnv noCancel (some (fixturePassReview 8)))
        "q" "s1" true 3 fixtureWritingStore).events := by
  refine ⟨by decide, by decide, by decide⟩

/-- C2 amended witness. -/
theorem resume_restarts_from_planning_witness :
    (graph_run (fixtureEnv noCancel (some (fixturePassReview 8))) "q" "s1" true 3
        fixtureWritingStore).events
      = Event.researchResumed fixtureSavedWritingState.phase ::
          (run_simplified (fixtureEnv noCancel (some (fixturePassReview 8)))
            fixtureSavedWritingState fixtureWritingStore).events ∧
    (run_simplified (fixtureEnv noCancel (some (fixturePassReview 8)))
        fixtureSavedWritingState fixtureWritingStore).events.head?
      = some (Event.phaseEvt "planning") := by
  have h := resume_restarts_from_planning (fixtureEnv noCancel (some (fixturePassReview 8)))
    "q" "s1" 3 fixtureWritingStore fixtureSavedWritingState rfl (by decide)
  exact ⟨h.1, h.2 rfl⟩

/-- C3 amended: a cancelled run emits `research_cancelled` as its last event
and exits, but never updates the checkpoint status to `"failed"`: the status
stays what it was or becomes `"running"` via a phase-boundary save (only the
exception path writes `"failed"`). -/
theorem cancellation_does_not_mark_failed :
    ∀ (env : RunEnv) (s : RState) (store : Option CheckpointRecord),
      (run_simplified env s store).outcome = RunOutcome.cancelled →
      (run_simplified env s store).events.getLast? = some Event.researchCancelled ∧
      (get_info_status store ≠ some "failed" →
        get_info_status (run_simplified env s store).store ≠ some "failed") := by
  intro env s store h
  obtain ⟨h1, h2⟩ := run_simplified_cancelled_status env s store h
  refine ⟨h1, ?_⟩
  intro hnf
  rcases h2 with h2 | h2
  · rw [h2]
    exact hnf
  · rw [h2]
    simp

/-- C3 counterexample: a run cancelled right after the planning phase ends
with a `research_cancelled` event while the checkpoint status is
`"running"` (from the planning save) — not `"failed"` as the claim
states. -/
theorem cancelled_run_keeps_running_status :
    (run_simplified (fixtureEnv cancelAtOne none) (create_initial_state "q" "s1") none).outcome
      = RunOutcome.cancelled ∧
    (run_simplified (fixtureEnv cancelAtOne none) (create_initial_state "q" "s1")
        none).events.getLast? = some Event.researchCancelled ∧
    get_info_status (run_simplified (fixtureEnv cancelAtOne none)
        (create_initial_state "q" "s1") none).store = some "running" := by
  refine ⟨by decide, by decide, by decide⟩

/-- C3 amended witness. -/
theorem cancellation_does_not_mark_failed_witness :
    (run_simplified (fixtureEnv cancelAtOne none) (create_initial_state "q" "s1")
        none).events.getLast? = some Event.researchCancelled ∧
    get_info_status (run_simplified (fixtureEnv cancelAtOne none)
        (create_initial_state "q" "s1") none).store ≠ some "failed" := by
  have h := cancellation_does_not_mark_failed (fixtureEnv cancelAtOne none)
    (create_initial_state "q" "s1") none (by decide)
  exact ⟨h.1, h.2 (by decide)⟩

/-- C8: `iteration ≤ max_iterations` in every reachable state:
the critic preserves `max_iterations` and keeps the invariant, increments
`iteration` only when `iteration < max_iterations`; with a non-pass verdict
at `iteration ≥ max_iterations` it sets the phase to completed without
incrementing; and every state in a run's trace satisfies the invariant
(given agents that preserve the two counters, as all the sourced agents
do). -/
theorem iteration_never_exceeds_max :
    (∀ (s : RState) (r : Option ReviewResult),
      (critic_process s r).state.max_iterations = s.max_iterations ∧
      (s.iteration ≤ s.max_iterations →
        (critic_process s r).state.iteration ≤ (critic_process s r).state.max_iterations)) ∧
    (∀ (s : RState) (rr : ReviewResult),
      s.phase = ResearchPhase.reviewing.value →
      (rr.overall_assessment.verdict == "pass") = false →
      s.iteration ≥ s.max_iterations →
      (critic_process s (some rr)).isOk = true ∧
      (critic_process s (some rr)).state.phase = ResearchPhase.completed.value ∧
      (critic_process s (some rr)).state.iteration = s.iteration) ∧
    (∀ (env : RunEnv) (s : RState) (store : Option CheckpointRecord),
      (∀ p ∈ prePhases env, ∀ f ∈ p.agents, preservesIter f) →
      s.iteration ≤ s.max_iterations →
      ∀ t ∈ (run_simplified env s store).trace, t.iteration ≤ t.max_iterations) := by
  refine ⟨?_, ?_, ?_⟩
  · intro s r
    exact ⟨(critic_process_iteration s r).1, fun h => critic_state_inv s r h⟩
  · intro s rr hp hv hge
    exact critic_process_force_complete s rr hp hv hge
  · intro env s store hpres h
    exact run_simplified_trace_inv env s store hpres h

/-- C8 witness. -/
theorem iteration_never_exceeds_max_witness :
    (critic_process fixtureReviewingState (some (fixturePassReview 8))).state.iteration
      ≤ (critic_process fixtureReviewingState (some (fixturePassReview 8))).state.max_iterations ∧
    (critic_process { fixtureReviewingState with iteration := 3 }
        (some fixtureRoutingReview)).state.iteration
      = ({ fixtureReviewingState with iteration := 3 } : RState).iteration ∧
    (create_initial_state "q" "s1").iteration ≤ (create_initial_state "q" "s1").max_iterations := by
  have hpres : ∀ p ∈ prePhases (fixtureEnv noCancel (some (fixturePassReview 8))),
      ∀ f ∈ p.agents, preservesIter f := by
    intro p hp f hf
    have htriv : preservesIter trivialAgent := fun _ => ⟨rfl, rfl⟩
    simp only [prePhases, fixtureEnv, List.mem_cons, List.not_mem_nil, or_false] at hp
    have hfe : f = trivialAgent := by
      rcases hp with rfl | rfl | rfl | rfl <;> simpa using hf
    rw [hfe]
    exact htriv
  have h := iteration_never_exceeds_max
  refine ⟨(h.1 fixtureReviewingState (some (fixturePassReview 8))).2 (by decide),
    (h.2.1 { fixtureReviewingState with iteration := 3 } fixtureRoutingReview rfl rfl
      (by decide)).2.2, ?_⟩
  exact h.2.2 (fixtureEnv noCancel (some (fixturePassReview 8))) (create_initial_state "q" "s1")
    none hpres (by decide) (create_initial_state "q" "s1") (by decide)

/-- C9: every service stream starts with the SSE frame of exactly one
`research_start`/`research_resumed` event, ends with exactly one
`data: [DONE]` frame, and when the generator raises an `error` frame is
emitted before the final `[DONE]`. -/
theorem sse_stream_wellformed :
    ∀ (env : RunEnv) (q sid : String) (resume : Bool) (mi : Nat)
      (store : Option CheckpointRecord) (n : Nat) (raised : Option String),
      1 ≤ n →
      (service_research ((graph_run env q sid resume mi store).events.take n) raised).getLast?
        = some doneFrame ∧
      (service_research ((graph_run env q sid resume mi store).events.take n) raised).countP
        (fun f => f == doneFrame) = 1 ∧
      ((graph_run env q sid resume mi store).events.take n).countP isStartEvent = 1 ∧
      (∃ e, isStartEvent e = true ∧
        (service_research ((graph_run env q sid resume mi store).events.take n) raised).head?
          = some (format_sse e)) ∧
      (∀ msg, raised = some msg →
        format_sse (Event.errorEvt msg)
          ∈ service_research ((graph_run env q sid resume mi store).events.take n) raised) := by
  intro env q sid resume mi store n raised hn
  obtain ⟨e0, rest, hev, hstart, hrest⟩ := graph_run_start env q sid resume mi store
  obtain ⟨m, rfl⟩ : ∃ m, n = m + 1 := ⟨n - 1, by omega⟩
  rw [hev]
  rw [List.take_succ_cons]
  refine ⟨?_, ?_, ?_, ?_, ?_⟩
  · unfold service_research
    rw [List.getLast?_append_of_ne_nil _ (by simp)]
    rfl
  · unfold service_research
    rw [List.countP_append, List.countP_append]
    have h1 : ∀ l : List Event, (l.map format_sse).countP (fun f => f == doneFrame) = 0 := by
      intro l
      rw [List.countP_map]
      exact List.countP_eq_zero.mpr (fun a _ => by simp [Function.comp, format_sse_ne_done])
    have h2 : ((match raised with
        | some msg => [format_sse (Event.errorEvt msg)]
        | none => []) : List String).countP (fun f => f == doneFrame) = 0 := by
      cases raised <;> simp [format_sse_ne_done]
    rw [h1, h2]
    simp
  · rw [List.countP_cons, hstart]
    have hz : (rest.take m).countP isStartEvent = 0 :=
      List.countP_eq_zero.mpr (fun a ha => by simp [hrest a (List.take_subset m rest ha)])
    rw [hz]
    simp
  · refine ⟨e0, hstart, ?_⟩
    unfold service_research
    rw [List.map_cons, List.cons_append, List.cons_append]
    rfl
  · intro msg hmsg
    subst hmsg
    unfold service_research
    simp

/-- C9 witness. -/
theorem sse_stream_wellformed_witness :
    (service_research ((graph_run (fixtureEnv noCancel (some (fixturePassReview 8))) "q" "s1"
        false 3 none).events.take 1) (some "boom")).getLast? = some doneFrame ∧
    format_sse (Event.errorEvt "boom")
      ∈ service_research ((graph_run (fixtureEnv noCancel (some (fixturePassReview 8))) "q" "s1"
          false 3 none).events.take 1) (some "boom") := by
  have h := sse_stream_wellformed (fixtureEnv noCancel (some (fixturePassReview 8))) "q" "s1"
    false 3 none 1 (some "boom") (by decide)
  exact ⟨h.1, h.2.2.2.2 "boom" rfl⟩

end DeepResearch
